import Mathlib

/-!
Verification development for the DCLG outfit-recommendation repository
(bruhhgnik/DCLG_outfitrec).

The repository's in-tree description of the algorithm lives in
`docs/algorithm.md` (mathematical formalization in sections 4 and 5 and the
pseudocode of section 4.3), in `README.md` ("The Algorithm (DCLG)" and
"Caching Strategy"), and in the root README ("How It Works").  The wire
types consumed by the client live in `client/src/types/index.ts`.  The
definitions below are shallow embeddings of those sources; definitions that
embed a part of the system whose implementation is not in the tree follow
the specification's words and say so in their doc comment.
-/

namespace DCLG

/-- Functional slots, from `docs/algorithm.md` section 3.1:
Base Top, Outerwear, Primary Bottom, Secondary Bottom, Footwear, Accessory. -/
inductive Slot where
  | baseTop
  | outerwear
  | primaryBottom
  | secondaryBottom
  | footwear
  | accessory
deriving DecidableEq, Repr

/-- The six slots in the order they are listed in `docs/algorithm.md`
section 3.1. -/
def allSlots : List Slot :=
  [Slot.baseTop, Slot.outerwear, Slot.primaryBottom, Slot.secondaryBottom,
   Slot.footwear, Slot.accessory]

/-- Product record, from the products table of `docs/algorithm.md`
section 3.1 and `schema.sql` (sku_id, functional_slot, occasion,
fashion_aesthetics, formality_score, season, primary_color,
statement_piece). -/
structure Product where
  sku : String
  functional_slot : Slot
  occasion : List String
  fashion_aesthetics : List String
  formality_score : Int
  season : List String
  primary_color : String
  statement_piece : Bool
deriving DecidableEq, Repr

/-- Boolean test that two tag lists share at least one element; this is the
`set(a) ∩ set(c) ≠ ∅` test used by the validity constraint of
`docs/algorithm.md` section 5.2. -/
def interNonempty (xs ys : List String) : Bool :=
  xs.any (fun v => ys.contains v)

/-- Validity constraint, from `docs/algorithm.md` section 5.2:
Valid(b, c) = (slot(c) ≠ slot(b)) ∧ (occ(b) ∩ occ(c) ≠ ∅) ∧
(aes(b) ∩ aes(c) ≠ ∅) ∧ (|form(b) − form(c)| ≤ 2) ∧
(season(b) ∩ season(c) ≠ ∅).  The worked example of section 6.2 applies
exactly these five conjuncts (BLAZER_001 is rejected because
|1 − 4| = 3 > 2). -/
def Valid (b c : Product) : Bool :=
  (b.functional_slot ≠ c.functional_slot) &&
  interNonempty b.occasion c.occasion &&
  interNonempty b.fashion_aesthetics c.fashion_aesthetics &&
  ((b.formality_score - c.formality_score).natAbs ≤ 2) &&
  interNonempty b.season c.season

/-- The five dimensions of `docs/algorithm.md` section 5.1. -/
inductive Dimension where
  | occasion
  | aesthetic
  | formality
  | color
  | season
deriving DecidableEq, Repr

/-- Names for formality scores 1..5, used as cluster values for the
formality dimension (scores are integers 1..5 per section 5.1). -/
def formalityName (n : Int) : String :=
  if n = 1 then "1"
  else if n = 2 then "2"
  else if n = 3 then "3"
  else if n = 4 then "4"
  else if n = 5 then "5"
  else "other"

/-- The value set dim_d(p) a product carries for a dimension, per
`docs/algorithm.md` sections 4.2 and 5.1: occasions, aesthetics, the
formality score, the primary color, the seasons. -/
def dimValues (d : Dimension) (p : Product) : List String :=
  match d with
  | Dimension.occasion => p.occasion
  | Dimension.aesthetic => p.fashion_aesthetics
  | Dimension.formality => [formalityName p.formality_score]
  | Dimension.color => [p.primary_color]
  | Dimension.season => p.season

/-- List intersection on tag lists (kept as a list; cardinality is taken
after deduplication). -/
def sinter (xs ys : List String) : List String :=
  xs.filter (fun v => ys.contains v)

/-- Number of distinct values in a tag list. -/
def valueCount (xs : List String) : Nat :=
  xs.dedup.length

/-- Intersection of the dimension-value sets of all items of a look,
the ∩_{p∈L} dim_d(p) of `docs/algorithm.md` section 5.4. -/
def interAll (d : Dimension) : List Product → List String
  | [] => []
  | [p] => dimValues d p
  | p :: q :: rest => sinter (dimValues d p) (interAll d (q :: rest))

/-- Union of the dimension-value sets of all items of a look,
the ∪_{p∈L} dim_d(p) of `docs/algorithm.md` section 5.4 (duplicates are
irrelevant because cardinality deduplicates). -/
def unionAll (d : Dimension) (L : List Product) : List String :=
  L.foldr (fun p acc => dimValues d p ++ acc) []

/-- DimensionBonus(L, d) = |∩_{p∈L} dim_d(p)| / |∪_{p∈L} dim_d(p)|, from
`docs/algorithm.md` section 5.4; 0 when the union is empty. -/
def DimensionBonus (d : Dimension) (L : List Product) : ℚ :=
  let u := valueCount (unionAll d L)
  if u = 0 then 0 else (valueCount (interAll d L) : ℚ) / (u : ℚ)

/-- Sum of G(p_i, p_j) over all unordered pairs i < j of the look, the
Σ_{i<j} G(p_i, p_j) of `docs/algorithm.md` section 5.4.  The graph G is a
total score function on sku pairs (section 5.1: G : P × P → [0, 1]); a
missing edge scores 0. -/
def pairSum (g : String → String → ℚ) : List Product → ℚ
  | [] => 0
  | p :: rest => (rest.map (fun q => g p.sku q.sku)).sum + pairSum g rest

/-- InternalCoherence(L) = (2 / (m (m − 1))) Σ_{i<j} G(p_i, p_j), from
`docs/algorithm.md` section 5.4; 0 for looks with fewer than two items. -/
def InternalCoherence (g : String → String → ℚ) (L : List Product) : ℚ :=
  let m := L.length
  if m ≤ 1 then 0 else pairSum g L * 2 / ((m : ℚ) * ((m : ℚ) - 1))

/-- SlotCoverage(L) = number of filled slots over the six slots; the worked
example of `docs/algorithm.md` section 6.4 computes 4/6 for a four-item
look (one item per slot). -/
def SlotCoverage (L : List Product) : ℚ :=
  (L.length : ℚ) / 6

/-- Objective(L, d) = α InternalCoherence(L) + β DimensionBonus(L, d) +
γ SlotCoverage(L) with α = 0.5, β = 0.3, γ = 0.2, from `docs/algorithm.md`
section 5.5. -/
def Objective (g : String → String → ℚ) (d : Dimension) (L : List Product) : ℚ :=
  (1/2) * InternalCoherence g L + (3/10) * DimensionBonus d L +
    (1/5) * SlotCoverage L

/-- Pairwise dimension bonus `calculateDimensionBonus(item, existing_item)`
of the pseudocode in `docs/algorithm.md` section 4.3: the DimensionBonus of
section 5.4 applied to the two-item look, i.e. the Jaccard index of the two
items' dimension-value sets. -/
def calculateDimensionBonus (d : Dimension) (x y : Product) : ℚ :=
  DimensionBonus d [x, y]

/-- coherenceWithLook(item, current_look) from the pseudocode of
`docs/algorithm.md` section 4.3: for each existing item the contribution is
(pair_score + dimension_bonus) / 2, and the total is divided by the number
of items in the current look. -/
def coherenceWithLook (g : String → String → ℚ) (d : Dimension)
    (item : Product) (look : List Product) : ℚ :=
  if look.length = 0 then 0
  else
    (look.map (fun e =>
      (g item.sku e.sku + calculateDimensionBonus d item e) / 2)).sum /
      (look.length : ℚ)

/-- One comparison step of the argmax over slot candidates: replace the
current best by the next candidate only when the next one scores strictly
higher (so the first of equally scored candidates is kept, as Python's
max does). -/
def pickStep (g : String → String → ℚ) (d : Dimension) (look : List Product)
    (acc : Option Product) (c : Product) : Option Product :=
  match acc with
  | none => some c
  | some b =>
      if coherenceWithLook g d c look > coherenceWithLook g d b look then
        some c
      else acc

/-- argmax over the slot candidates by coherenceWithLook, keeping the first
of equally scored candidates, as `argmax(slot_candidates, key=...)` in the
pseudocode of `docs/algorithm.md` section 4.3. -/
def pickBest (g : String → String → ℚ) (d : Dimension)
    (look : List Product) (pool : List Product) : Option Product :=
  pool.foldl (pickStep g d look) none

/-- One step of slot filling: if the cluster has candidates for the slot,
add the best one to the look, else skip the slot (pseudocode of
`docs/algorithm.md` section 4.3). -/
def fillSlot (g : String → String → ℚ) (d : Dimension)
    (candidates : List Product) (look : List Product) (s : Slot) :
    List Product :=
  match pickBest g d look
      (candidates.filter (fun c => c.functional_slot = s)) with
  | none => look
  | some c => look ++ [c]

/-- buildLookFromCluster from the pseudocode of `docs/algorithm.md`
section 4.3: start from the base product, walk the slots other than the
base product's slot, and greedily add the candidate of that slot that
maximizes coherence with the look so far. -/
def buildLookFromCluster (g : String → String → ℚ) (d : Dimension)
    (base : Product) (candidates : List Product) : List Product :=
  (allSlots.filter (fun s => s ≠ base.functional_slot)).foldl
    (fillSlot g d candidates) [base]

/-- Neutral color bucket for the color-strategy dimension, from
`docs/algorithm.md` section 4.2 ("Neutral: Black, White, Gray, Navy,
Beige only"). -/
def neutralPalette : List String :=
  ["Black", "White", "Gray", "Navy", "Beige"]

/-- Warm hue family.  Modelled from the spec: the color-wheel/hue-family
table used by the Complementary and Accent strategies is not in the tree;
the glossary's families are used (Warm = Red, Orange, Yellow, Brown,
Beige). -/
def warmColors : List String :=
  ["Red", "Orange", "Yellow", "Brown", "Beige"]

/-- Cool hue family.  Modelled from the spec: glossary families
(Cool = Blue, Navy, Green, Teal, Purple). -/
def coolColors : List String :=
  ["Blue", "Navy", "Green", "Teal", "Purple"]

/-- Membership test for the four color strategies of `docs/algorithm.md`
section 4.2 (Monochrome, Complementary, Neutral, Accent), relative to the
base product's primary color.  The Complementary/Accent pairing is
modelled from the spec's glossary (accent pairs are cross-family
Warm ↔ Cool) because the color-wheel table is not in the tree. -/
def colorStrategyMember (base : Product) (strategy : String) (p : Product) :
    Bool :=
  if strategy = "Monochrome" then p.primary_color = base.primary_color
  else if strategy = "Neutral" then neutralPalette.contains p.primary_color
  else if strategy = "Complementary" || strategy = "Accent" then
    (warmColors.contains base.primary_color &&
      coolColors.contains p.primary_color) ||
    (coolColors.contains base.primary_color &&
      warmColors.contains p.primary_color)
  else false

/-- Cluster keys per dimension, from `docs/algorithm.md` section 4.3
step 1 (valid_space): the base product's occasions, its aesthetics, the
formality range [base − 1, base + 1], and the four color strategies.  The
occasion clusters of the worked example (section 6.3) are exactly one per
occasion of the base product. -/
def clusterKeys (base : Product) (d : Dimension) : List String :=
  match d with
  | Dimension.occasion => base.occasion
  | Dimension.aesthetic => base.fashion_aesthetics
  | Dimension.formality =>
      [formalityName (base.formality_score - 1),
       formalityName base.formality_score,
       formalityName (base.formality_score + 1)]
  | Dimension.color => ["Monochrome", "Complementary", "Neutral", "Accent"]
  | Dimension.season => base.season

/-- Members of the cluster with key v for dimension d: candidates sharing
the value v (for the color dimension, candidates matching the strategy),
per `docs/algorithm.md` sections 5.3 and 4.2. -/
def clusterMembers (base : Product) (d : Dimension) (v : String)
    (pool : List Product) : List Product :=
  match d with
  | Dimension.color => pool.filter (colorStrategyMember base v)
  | _ => pool.filter (fun p => (dimValues d p).contains v)

/-- A cluster: its dimension, its value, and its member list, as in
`docs/algorithm.md` section 4.3 step 3 (dimension_clusters). -/
structure Cluster where
  dimension : Dimension
  value : String
  members : List Product
deriving DecidableEq, Repr

/-- Step 3 of the pseudocode of `docs/algorithm.md` section 4.3: cluster
the candidate pool by the dimensions Occasion, Aesthetic, Formality and
ColorStrategy, one cluster per key. -/
def buildClusters (base : Product) (pool : List Product) : List Cluster :=
  [Dimension.occasion, Dimension.aesthetic, Dimension.formality,
   Dimension.color].flatMap
    (fun d => (clusterKeys base d).map
      (fun v => Cluster.mk d v (clusterMembers base d v pool)))

/-- A generated look: its items, the dimension and the cluster value it
was built from, as assembled by `docs/algorithm.md` section 4.3 step 4. -/
structure GenLook where
  items : List Product
  dimension : Dimension
  value : String
deriving DecidableEq, Repr

/-- One iteration of the generation loop of `docs/algorithm.md` section 4.3
step 4: while fewer than num_looks looks are built, take the next unused
cluster, build a look from it with buildLookFromCluster, and append it.
The pseudocode appends every built look: it has no rejection step and no
duplicate check beyond the used_clusters set. -/
def genStep (g : String → String → ℚ) (base : Product) (numLooks : Nat)
    (looks : List GenLook) (cl : Cluster) : List GenLook :=
  if looks.length < numLooks then
    looks ++ [GenLook.mk (buildLookFromCluster g cl.dimension base
      cl.members) cl.dimension cl.value]
  else looks

/-- generateMultipleLooks of `docs/algorithm.md` section 4.3: filter the
pool to the valid candidates, cluster them by dimension, then loop cluster
selection and look building until numLooks looks exist or the clusters run
out.  The pseudocode leaves the order of `selectBestUnusedCluster` open;
clusters are consumed in the construction order of buildClusters (occasion
first, then aesthetic, formality, color strategy), which is the dimension
priority order the repository's examples follow. -/
def generateMultipleLooks (g : String → String → ℚ) (base : Product)
    (pool : List Product) (numLooks : Nat) : List GenLook :=
  let valid := pool.filter (fun c => Valid base c)
  let clusters := buildClusters base valid
  clusters.foldl (genStep g base numLooks) []

/-- Whether some item of the look fills the given slot. -/
def hasSlot (look : List Product) (s : Slot) : Bool :=
  look.any (fun p => p.functional_slot = s)

/-- Acceptance rule of the root README ("How It Works", step 5 of The
Algorithm (DCLG)): "Make sure every look has footwear and an accessory". -/
def meetsFootwearAccessoryRule (look : List Product) : Bool :=
  hasSlot look Slot.footwear && hasSlot look Slot.accessory

/-- The look assembler with the README's acceptance rule: build the look
from the cluster, return it only if it has footwear and an accessory. -/
def assembleLook (g : String → String → ℚ) (d : Dimension) (base : Product)
    (candidates : List Product) : Option (List Product) :=
  let look := buildLookFromCluster g d base candidates
  if meetsFootwearAccessoryRule look then some look else none

/-- TTL of the server-side cache, from `README.md` (Caching Strategy):
five minutes. -/
def cacheTtlSeconds : Nat := 300

/-- A cached compatibility lookup: the neighbor edges of a sku and the
entry's expiry instant.  From `README.md` (Caching Strategy): the
server-side TTL cache "caches compatibility lookups in memory". -/
structure CacheEntry where
  edges : List (String × ℚ)
  expiry : Nat
deriving DecidableEq, Repr

/-- Server-side mutable state: the compatibility cache and a counter of
database invocations of the neighbors lookup. -/
structure ServerState where
  cache : List (String × CacheEntry)
  neighborsCalls : Nat
deriving DecidableEq, Repr

/-- Server state at process start: empty cache, no lookups performed. -/
def initialServerState : ServerState := ServerState.mk [] 0

/-- A database fetch of the compatibility neighbors of a sku: performs the
lookup, stores it in the cache with the TTL of `README.md`, and counts the
invocation. -/
def compatFetch (store : String → List (String × ℚ)) (st : ServerState)
    (sku : String) (now : Nat) : List (String × ℚ) × ServerState :=
  let es := store sku
  (es, ServerState.mk ((sku, CacheEntry.mk es (now + cacheTtlSeconds)) ::
    st.cache) (st.neighborsCalls + 1))

/-- Cached compatibility lookup, from `README.md` (Caching Strategy):
serve from the cache when a live entry for the sku exists, otherwise fetch
from the database and cache the result. -/
def compatLookup (store : String → List (String × ℚ)) (st : ServerState)
    (sku : String) (now : Nat) : List (String × ℚ) × ServerState :=
  match st.cache.find? (fun e => e.1 = sku) with
  | some e =>
      if now < e.2.expiry then (e.2.edges, st)
      else compatFetch store st sku now
  | none => compatFetch store st sku now

/-- The response of the look-generation endpoint: the anchor, the looks
and their count, per `docs/algorithm.md` section 8.1. -/
structure LooksResponse where
  baseSku : String
  looks : List GenLook
  totalLooks : Nat
deriving DecidableEq, Repr

/-- Hydrate the candidate pool from the anchor's neighbor edges: each peer
sku is resolved against the catalog, missing peers are dropped
(`README.md` The Algorithm (DCLG), steps 1-2). -/
def poolFromEdges (catalog : List Product) (edges : List (String × ℚ)) :
    List Product :=
  edges.filterMap (fun e => catalog.find? (fun p => p.sku = e.1))

/-- The look-generation endpoint over the cached compatibility store:
resolve the anchor, obtain its neighbors through the cache (counting
database invocations), and run the in-memory DCLG pipeline on the hydrated
pool.  The pipeline is a pure function of the catalog, the pair-score
graph, the anchor, the edges and numLooks, so its output is reproducible
(`README.md` The Algorithm (DCLG), Caching Strategy). -/
def generateCached (store : String → List (String × ℚ))
    (catalog : List Product) (g : String → String → ℚ) (sku : String)
    (numLooks : Nat) (st : ServerState) (now : Nat) :
    Option LooksResponse × ServerState :=
  match catalog.find? (fun p => p.sku = sku) with
  | none => (none, st)
  | some base =>
      let res := compatLookup store st sku now
      let looks := generateMultipleLooks g base (poolFromEdges catalog res.1)
        numLooks
      (some (LooksResponse.mk sku looks looks.length), res.2)

/-- Error kinds of the service, from the spec's section 7. -/
inductive DCLGError where
  | AnchorNotFound
  | InvalidArgument
  | StoreUnavailable
deriving DecidableEq, Repr

/-- Upper bound on numLooks, from the spec's section 6 configuration
(maxLooks, default 10). -/
def maxLooks : Nat := 10

/-- Modelled from the spec: DCLGService.generate argument validation and
failure semantics (spec sections 4.1, 4.8 and 7); the service
implementation (backend/app/services/look_generator.py of the project
structure) is not in the tree.  numLooks outside [1, maxLooks] fails with
InvalidArgument, an unknown anchor sku fails with AnchorNotFound, and an
empty candidate pool after validity filtering returns
LooksResponse(anchor, [], 0) instead of failing. -/
def generateService (catalog : List Product) (g : String → String → ℚ)
    (anchorSku : String) (numLooks : Nat) :
    Except DCLGError LooksResponse :=
  if numLooks < 1 || maxLooks < numLooks then
    Except.error DCLGError.InvalidArgument
  else
    match catalog.find? (fun p => p.sku = anchorSku) with
    | none => Except.error DCLGError.AnchorNotFound
    | some base =>
        let pool := (catalog.filter (fun p => p.sku ≠ anchorSku)).filter
          (fun c => Valid base c)
        if pool.isEmpty then Except.ok (LooksResponse.mk anchorSku [] 0)
        else
          let looks := generateMultipleLooks g base pool numLooks
          Except.ok (LooksResponse.mk anchorSku looks looks.length)

/-- Configuration record.  Modelled from the spec: section 6 enumerates a
strictAesthetics flag (default false); no such flag exists in the tree. -/
structure Config where
  strictAesthetics : Bool
deriving DecidableEq, Repr

/-- Default configuration of the spec: strictAesthetics off. -/
def defaultConfig : Config := Config.mk false

/-- Modelled from the spec: the validity predicate of the spec's
section 4.3 — rules 2 and 3 vacuously satisfied when either side's set is
empty, and the aesthetic overlap applied only when strictAesthetics is on.
Stated for refinement comparison with Valid. -/
def specValid (cfg : Config) (a c : Product) : Bool :=
  (a.functional_slot ≠ c.functional_slot) &&
  (a.occasion.isEmpty || c.occasion.isEmpty ||
    interNonempty a.occasion c.occasion) &&
  (a.season.isEmpty || c.season.isEmpty ||
    interNonempty a.season c.season) &&
  ((a.formality_score - c.formality_score).natAbs ≤ 2) &&
  (!cfg.strictAesthetics ||
    interNonempty a.fashion_aesthetics c.fashion_aesthetics)

/-- Modelled from the spec: edgeScore(x, y) of the spec's section 4.7, the
symmetric lookup max(E(x, y), E(y, x)) over the total score function (a
missing edge scores 0).  Stated for comparison with the pseudocode's
getPairScore. -/
def specEdgeScore (g : String → String → ℚ) (x y : String) : ℚ :=
  max (g x y) (g y x)

/-- Modelled from the spec: dimensionBonus(c, L) of the spec's section 4.7
— the fraction of the items of L together with c that carry the cluster's
dimension value (1 when all of them do). -/
def specDimensionBonus (d : Dimension) (v : String) (c : Product)
    (L : List Product) : ℚ :=
  ((c :: L).countP (fun p => (dimValues d p).contains v) : ℚ) /
    ((c :: L).length : ℚ)

/-- Modelled from the spec: coherenceIncrement(c, L) of the spec's
section 4.7 — the mean of edgeScore(c, p) over the items p of L, plus
dimensionBonus(c, L) · β with β = 0.3.  Stated for comparison with the
pseudocode's coherenceWithLook. -/
def specCoherenceIncrement (g : String → String → ℚ) (d : Dimension)
    (v : String) (c : Product) (L : List Product) : ℚ :=
  (if L.length = 0 then 0
   else (L.map (fun p => specEdgeScore g c.sku p.sku)).sum /
     (L.length : ℚ)) +
  specDimensionBonus d v c L * (3/10)

/-- Modelled from the spec: the assembler rejection rule of the spec's
section 4.6 steps 3-4 — reject iff neither Footwear nor Accessory is
filled, or the look has fewer than 3 items.  Stated for comparison with
meetsFootwearAccessoryRule. -/
def specLookRejected (look : List Product) : Bool :=
  (!hasSlot look Slot.footwear && !hasSlot look Slot.accessory) ||
    look.length < 3

/-- Field names of the Look interface of client/src/types/index.ts
(lines 80-88), in declaration order. -/
def LookFields : List String :=
  ["id", "name", "description", "dimension", "dimension_value", "items",
   "slots_filled"]

/-- Field names of a look object of the proposed response of
`docs/algorithm.md` section 8.1, in order of appearance. -/
def proposedResponseLookFields : List String :=
  ["id", "name", "description", "dimension", "dimension_value",
   "coherence_score", "items", "slots_filled"]

/-- Modelled from the spec: the look wire-shape fields the spec's
section 6 lists (id, name, dimension, dimensionValue, coherence, items,
slotsFilled).  Stated for comparison with LookFields. -/
def specWireLookFields : List String :=
  ["id", "name", "dimension", "dimensionValue", "coherence", "items",
   "slotsFilled"]

/-! ### Concrete instances used by the checks below -/

/-- The all-zero pair-score function (no edges). -/
def zeroGraph : String → String → ℚ := fun _ _ => 0

/-- Example base product, modelled on the gym tank of `docs/algorithm.md`
section 6.1. -/
def gymTank : Product :=
  Product.mk "TANK" Slot.baseTop ["Gym"] ["Athletic"] 1 ["Summer"] "Black"
    false

/-- Example bottoms sharing the base product's occasion and aesthetic. -/
def dupShorts : Product :=
  Product.mk "SHORTS" Slot.primaryBottom ["Gym"] ["Athletic"] 1 ["Summer"]
    "Black" false

/-- Example footwear sharing the base product's occasion and aesthetic. -/
def dupSneaker : Product :=
  Product.mk "SNEAKER" Slot.footwear ["Gym"] ["Athletic"] 1 ["Summer"]
    "White" false

/-- Example accessory sharing the base product's occasion and aesthetic. -/
def dupCap : Product :=
  Product.mk "CAP" Slot.accessory ["Gym"] ["Athletic"] 1 ["Summer"] "Black"
    false

/-- A pool whose occasion cluster (Gym) and aesthetic cluster (Athletic)
have exactly the same members. -/
def dupPool : List Product := [dupShorts, dupSneaker, dupCap]

/-- Anchor for the validity checks: base top, Casual, Classic aesthetic,
formality 3. -/
def anchorC1 : Product :=
  Product.mk "A1" Slot.baseTop ["Casual"] ["Classic"] 3 ["Summer"] "Navy"
    false

/-- Candidate for the validity checks: footwear, shares occasion and
season with anchorC1, formality gap exactly 2, but no shared aesthetic. -/
def candC1 : Product :=
  Product.mk "B1" Slot.footwear ["Casual"] ["Sporty"] 5 ["Summer"] "Black"
    false

/-- Anchor for the empty-set checks. -/
def anchorC6 : Product :=
  Product.mk "A6" Slot.baseTop ["Casual"] ["Streetwear"] 2 ["Summer"]
    "Black" false

/-- Candidate with an empty occasion set, otherwise fully compatible with
anchorC6. -/
def candC6 : Product :=
  Product.mk "B6" Slot.footwear [] ["Streetwear"] 2 ["Summer"] "White" false

/-- The same candidate with a matching occasion instead of the empty set. -/
def candC6occ : Product :=
  Product.mk "B6" Slot.footwear ["Casual"] ["Streetwear"] 2 ["Summer"]
    "White" false

/-- Base product for the assembler checks. -/
def baseC5 : Product :=
  Product.mk "A5" Slot.baseTop ["Casual"] ["Streetwear"] 2 ["Summer"]
    "Black" false

/-- Bottoms candidate for the assembler checks. -/
def bottomC5 : Product :=
  Product.mk "B5" Slot.primaryBottom ["Casual"] ["Streetwear"] 2 ["Summer"]
    "Black" false

/-- Footwear candidate for the assembler checks. -/
def footC5 : Product :=
  Product.mk "F5" Slot.footwear ["Casual"] ["Streetwear"] 2 ["Summer"]
    "White" false

/-- Accessory candidate for the assembler checks. -/
def accC5 : Product :=
  Product.mk "X5" Slot.accessory ["Casual"] ["Streetwear"] 2 ["Summer"]
    "Black" false

/-! ### Helper lemmas -/

/-- interNonempty decides the existence of a common element. -/
theorem interNonempty_iff (xs ys : List String) :
    interNonempty xs ys = true ↔ ∃ v, v ∈ xs ∧ v ∈ ys := by
  simp [interNonempty, List.any_eq_true]

/-- interNonempty is false when the left list is empty. -/
theorem interNonempty_nil_left (ys : List String) :
    interNonempty [] ys = false := rfl

/-- interNonempty is false when the right list is empty. -/
theorem interNonempty_nil_right (xs : List String) :
    interNonempty xs [] = false := by
  simp [interNonempty]

/-! ### C1 -/

/-- C1, counterexample.  The claim renders the aesthetic-overlap rule as
optional (config flag strictAesthetics, off by default), so the candidate
candC1 — distinct slot, shared occasion, shared season, formality gap
exactly 2, but no shared aesthetic — would pass; the repository's Valid
(docs/algorithm.md section 5.2) makes the aesthetic intersection a
mandatory conjunct and rejects it. -/
theorem valid_strict_aesthetics_counterexample :
    specValid defaultConfig anchorC1 candC1 = true ∧
    Valid anchorC1 candC1 = false := by decide

/-- C1, amended.  Valid(b, c) holds iff the slots differ, the occasion
sets intersect, the aesthetics sets intersect (unconditionally: there is
no strictAesthetics flag), the formality gap is at most 2 (a gap of
exactly 2 passes), and the season sets intersect. -/
theorem valid_characterization (b c : Product) :
    Valid b c = true ↔
      (b.functional_slot ≠ c.functional_slot ∧
       (∃ v, v ∈ b.occasion ∧ v ∈ c.occasion) ∧
       (∃ v, v ∈ b.fashion_aesthetics ∧ v ∈ c.fashion_aesthetics) ∧
       (b.formality_score - c.formality_score).natAbs ≤ 2 ∧
       (∃ v, v ∈ b.season ∧ v ∈ c.season)) := by
  simp [Valid, interNonempty_iff, and_assoc]

/-! ### C6 -/

/-- C6, counterexample.  candC6 has an empty occasion set and is otherwise
fully compatible with anchorC6; the claim says an empty occasion set never
causes filtering, yet Valid rejects candC6 and accepts the same candidate
once its occasion set is non-empty and matching — the empty set is exactly
what filtered it out. -/
theorem valid_empty_occasion_counterexample :
    candC6.occasion = [] ∧ Valid anchorC6 candC6 = false ∧
    Valid anchorC6 candC6occ = true := by decide

/-- C6, amended.  An empty occasion or season set on either side makes the
corresponding intersection of Valid empty, so the candidate is filtered
out (the repository's Valid has no vacuous-satisfaction provision). -/
theorem valid_fails_on_empty_sets (a c : Product)
    (h : a.occasion = [] ∨ c.occasion = [] ∨ a.season = [] ∨
      c.season = []) :
    Valid a c = false := by
  rcases h with h | h | h | h <;>
    simp [Valid, h, interNonempty_nil_left, interNonempty_nil_right]

/-- C6, witness for the amended theorem at the concrete candidate with the
empty occasion set. -/
theorem valid_fails_on_empty_sets_witness :
    candC6.occasion = [] ∧ Valid anchorC6 candC6 = false :=
  ⟨rfl, valid_fails_on_empty_sets anchorC6 candC6 (Or.inr (Or.inl rfl))⟩

/-! ### C7 and C10 -/

/-- C7, counterexample.  The Look interface of client/src/types/index.ts
— the wire shape the client consumes — has no coherence field. -/
theorem look_wire_no_coherence_counterexample :
    "coherence" ∉ LookFields := by decide

/-- C7, amended.  Look objects of the client wire shape carry no coherence
field; the proposed response of docs/algorithm.md section 8.1 instead
carries a coherence_score field, which the client type also omits. -/
theorem look_wire_coherence_fields :
    LookFields.contains "coherence" = false ∧
    "coherence_score" ∈ proposedResponseLookFields ∧
    "coherence_score" ∉ LookFields := by decide

/-- C10.  Every look object of the client wire shape carries a description
field, which is not among the fields the spec's wire shape lists. -/
theorem look_wire_has_description :
    "description" ∈ LookFields ∧ "description" ∉ specWireLookFields := by
  decide

/-! ### C5, counterexample -/

/-- C5, counterexample.  From the cluster [bottomC5, footC5] the assembler
builds the three-item look [baseC5, bottomC5, footC5] with Footwear filled
and Accessory empty: the claim (spec 4.6) accepts such a look — its
rejection predicate is false — but the repository's rule ("make sure every
look has footwear and an accessory") rejects it and assembleLook returns
none. -/
theorem footwear_only_look_rejected_counterexample :
    assembleLook zeroGraph Dimension.occasion baseC5 [bottomC5, footC5] =
      none ∧
    specLookRejected (buildLookFromCluster zeroGraph Dimension.occasion
      baseC5 [bottomC5, footC5]) = false := by decide

/-! ### C2, counterexample -/

/-- C2, counterexample.  The Gym occasion cluster and the Athletic
aesthetic cluster of dupPool have identical members, and the generation
loop of docs/algorithm.md section 4.3 deduplicates only cluster keys, so
generate(gymTank, 2) returns two looks with the same multiset of SKUs —
the pairwise-distinctness guarantee fails. -/
theorem generate_duplicate_looks_counterexample :
    ((generateMultipleLooks zeroGraph gymTank dupPool 2).map
      (fun l => l.items.map Product.sku)) =
      [["TANK", "SHORTS", "SNEAKER", "CAP"],
       ["TANK", "SHORTS", "SNEAKER", "CAP"]] := by decide

/-! ### C3 -/

/-- Anchor for the coherence-formula checks. -/
def anchorC3 : Product :=
  Product.mk "A3" Slot.baseTop ["Casual"] ["Street"] 1 ["Summer"] "Black"
    false

/-- Footwear candidate whose aesthetics coincide with the cluster value. -/
def streetShoe : Product :=
  Product.mk "B3" Slot.footwear ["Casual"] ["Street"] 1 ["Summer"] "Black"
    false

/-- Footwear candidate with an extra aesthetic tag and a slightly higher
edge score to the anchor. -/
def edgeShoe : Product :=
  Product.mk "E3" Slot.footwear ["Casual"] ["Street", "Edge"] 1 ["Summer"]
    "White" false

/-- Symmetric pair-score function for the coherence-formula checks:
score 0.5 between A3 and B3, score 0.52 between A3 and E3, 0 elsewhere. -/
def gC3 : String → String → ℚ := fun x y =>
  if (x = "A3" ∧ y = "B3") ∨ (x = "B3" ∧ y = "A3") then 1/2
  else if (x = "A3" ∧ y = "E3") ∨ (x = "E3" ∧ y = "A3") then 13/25
  else 0

/-- A pickStep either promotes the new candidate or keeps the accumulator. -/
theorem pickStep_cases (g : String → String → ℚ) (d : Dimension)
    (look : List Product) (acc : Option Product) (c : Product) :
    pickStep g d look acc c = some c ∨ pickStep g d look acc c = acc := by
  cases acc with
  | none => exact Or.inl rfl
  | some b =>
      by_cases h :
        coherenceWithLook g d c look > coherenceWithLook g d b look
      · exact Or.inl (by simp [pickStep, h])
      · exact Or.inr (by simp [pickStep, h])

/-- The fold of pickStep yields the accumulator or a pool member. -/
theorem foldl_pickStep_mem (g : String → String → ℚ) (d : Dimension)
    (look : List Product) :
    ∀ (pool : List Product) (acc : Option Product) (c : Product),
      pool.foldl (pickStep g d look) acc = some c →
      acc = some c ∨ c ∈ pool := by
  intro pool
  induction pool with
  | nil => intro acc c h; exact Or.inl h
  | cons x rest ih =>
      intro acc c h
      simp only [List.foldl_cons] at h
      rcases pickStep_cases g d look acc x with h2 | h2
      · rw [h2] at h
        rcases ih (some x) c h with h1 | h1
        · have hxc : x = c := Option.some.inj h1
          subst hxc
          exact Or.inr (List.mem_cons_self x rest)
        · exact Or.inr (List.mem_cons_of_mem x h1)
      · rw [h2] at h
        rcases ih acc c h with h1 | h1
        · exact Or.inl h1
        · exact Or.inr (List.mem_cons_of_mem x h1)

/-- The fold of pickStep returns a candidate whose coherenceWithLook is
maximal among the accumulator and the pool. -/
theorem foldl_pickStep_le (g : String → String → ℚ) (d : Dimension)
    (look : List Product) :
    ∀ (pool : List Product) (acc : Option Product) (c : Product),
      pool.foldl (pickStep g d look) acc = some c →
      (∀ b, acc = some b →
        coherenceWithLook g d b look ≤ coherenceWithLook g d c look) ∧
      (∀ x ∈ pool,
        coherenceWithLook g d x look ≤ coherenceWithLook g d c look) := by
  intro pool
  induction pool with
  | nil =>
      intro acc c h
      refine ⟨fun b hb => ?_, fun x hx => absurd hx (List.not_mem_nil x)⟩
      simp only [List.foldl_nil] at h
      rw [hb] at h
      exact le_of_eq (congrArg (fun z => coherenceWithLook g d z look)
        (Option.some.inj h))
  | cons x rest ih =>
      intro acc c h
      simp only [List.foldl_cons] at h
      have IH := ih (pickStep g d look acc x) c h
      constructor
      · intro b hb
        by_cases hgt :
          coherenceWithLook g d x look > coherenceWithLook g d b look
        · have hs : pickStep g d look acc x = some x := by
            rw [hb]; simp [pickStep, hgt]
          exact le_trans (le_of_lt hgt) (IH.1 x hs)
        · have hs : pickStep g d look acc x = some b := by
            rw [hb]; simp [pickStep, hgt]
          exact IH.1 b hs
      · intro y hy
        rcases List.mem_cons.mp hy with rfl | hy2
        · cases acc with
          | none => exact IH.1 y (by simp [pickStep])
          | some b =>
              by_cases hgt :
                coherenceWithLook g d y look > coherenceWithLook g d b look
              · exact IH.1 y (by simp [pickStep, hgt])
              · exact le_trans (not_lt.mp hgt)
                  (IH.1 b (by simp [pickStep, hgt]))
        · exact IH.2 y hy2

/-- C3, amended.  The assembler's selection maximizes coherenceWithLook —
the pseudocode's per-pair average (pair_score + pairwise dimension
bonus) / 2 averaged over the current look — not the spec's
mean edgeScore plus 0.3-weighted look-level bonus. -/
theorem pickBest_maximizes (g : String → String → ℚ) (d : Dimension)
    (look pool : List Product) (c : Product)
    (h : pickBest g d look pool = some c) :
    c ∈ pool ∧ ∀ x ∈ pool,
      coherenceWithLook g d x look ≤ coherenceWithLook g d c look := by
  simp only [pickBest] at h
  constructor
  · rcases foldl_pickStep_mem g d look pool none c h with h1 | h1
    · cases h1
    · exact h1
  · exact (foldl_pickStep_le g d look pool none c h).2

/-- C3, counterexample.  With the anchor as partial look, the spec's
coherenceIncrement prefers edgeShoe (0.52 + 0.3 = 0.82 over 0.5 + 0.3 =
0.80), but the assembler picks streetShoe, whose pseudocode score
(0.5 + 1)/2 = 0.75 beats edgeShoe's (0.52 + 0.5)/2 = 0.51 — the claimed
selection rule is not the implemented one. -/
theorem pick_not_spec_argmax_counterexample :
    pickBest gC3 Dimension.aesthetic [anchorC3] [streetShoe, edgeShoe] =
      some streetShoe ∧
    specCoherenceIncrement gC3 Dimension.aesthetic "Street" streetShoe
        [anchorC3] <
      specCoherenceIncrement gC3 Dimension.aesthetic "Street" edgeShoe
        [anchorC3] := by
  constructor
  · norm_num +decide [pickBest, pickStep, coherenceWithLook,
      calculateDimensionBonus, DimensionBonus, valueCount, interAll,
      unionAll, sinter, dimValues, gC3, anchorC3, streetShoe, edgeShoe]
  · norm_num +decide [specCoherenceIncrement, specEdgeScore, specDimensionBonus,
      dimValues, gC3, anchorC3, streetShoe, edgeShoe]

/-- C3, witness for the amended theorem at the concrete pool: streetShoe
is picked and indeed maximizes coherenceWithLook over the pool. -/
theorem pickBest_maximizes_witness :
    pickBest gC3 Dimension.aesthetic [anchorC3] [streetShoe, edgeShoe] =
      some streetShoe ∧
    (streetShoe ∈ [streetShoe, edgeShoe] ∧
      ∀ x ∈ [streetShoe, edgeShoe],
        coherenceWithLook gC3 Dimension.aesthetic x [anchorC3] ≤
          coherenceWithLook gC3 Dimension.aesthetic streetShoe
            [anchorC3]) := by
  have h : pickBest gC3 Dimension.aesthetic [anchorC3]
      [streetShoe, edgeShoe] = some streetShoe := by
    norm_num +decide [pickBest, pickStep, coherenceWithLook,
      calculateDimensionBonus, DimensionBonus, valueCount, interAll,
      unionAll, sinter, dimValues, gC3, anchorC3, streetShoe, edgeShoe]
  exact ⟨h, pickBest_maximizes gC3 Dimension.aesthetic [anchorC3]
    [streetShoe, edgeShoe] streetShoe h⟩

/-! ### Structure of the assembled looks -/

/-- pickBest yields a member of its pool. -/
theorem pickBest_mem (g : String → String → ℚ) (d : Dimension)
    (look pool : List Product) (c : Product)
    (h : pickBest g d look pool = some c) : c ∈ pool := by
  simp only [pickBest] at h
  rcases foldl_pickStep_mem g d look pool none c h with h1 | h1
  · cases h1
  · exact h1

/-- Slot filling appends items: the result is the accumulator followed by
items drawn from the cluster, whose slots form a sublist of the processed
slot list (each slot is filled at most once, with an item of that slot). -/
theorem fillSlots_structure (g : String → String → ℚ) (d : Dimension)
    (cands : List Product) :
    ∀ (slots : List Slot) (acc : List Product),
      ∃ extra, slots.foldl (fillSlot g d cands) acc = acc ++ extra ∧
        (extra.map Product.functional_slot).Sublist slots ∧
        ∀ x ∈ extra, x ∈ cands := by
  intro slots
  induction slots with
  | nil =>
      intro acc
      exact ⟨[], by simp, List.nil_sublist [], by simp⟩
  | cons s rest ih =>
      intro acc
      simp only [List.foldl_cons]
      cases hp : pickBest g d acc
          (cands.filter (fun c => c.functional_slot = s)) with
      | none =>
          obtain ⟨extra, he, hsub, hm⟩ := ih acc
          refine ⟨extra, ?_, hsub.cons s, hm⟩
          rw [show fillSlot g d cands acc s = acc from by
            simp [fillSlot, hp]]
          exact he
      | some c =>
          have hc := pickBest_mem g d acc
            (cands.filter (fun x => x.functional_slot = s)) c hp
          have hcc : c ∈ cands := (List.mem_filter.mp hc).1
          have hcs : c.functional_slot = s := by
            simpa using (List.mem_filter.mp hc).2
          obtain ⟨extra, he, hsub, hm⟩ := ih (acc ++ [c])
          refine ⟨c :: extra, ?_, ?_, ?_⟩
          · rw [show fillSlot g d cands acc s = acc ++ [c] from by
              simp [fillSlot, hp]]
            rw [he, List.append_assoc]
            rfl
          · simpa only [List.map_cons, hcs] using hsub.cons₂ s
          · intro x hx
            rcases List.mem_cons.mp hx with rfl | hx2
            · exact hcc
            · exact hm x hx2

/-- buildLookFromCluster returns the base product followed by cluster
items whose slots form a sublist of the non-base slots. -/
theorem buildLookFromCluster_structure (g : String → String → ℚ)
    (d : Dimension) (base : Product) (cands : List Product) :
    ∃ extra, buildLookFromCluster g d base cands = base :: extra ∧
      (extra.map Product.functional_slot).Sublist
        (allSlots.filter (fun s => s ≠ base.functional_slot)) ∧
      ∀ x ∈ extra, x ∈ cands := by
  obtain ⟨extra, he, hsub, hm⟩ := fillSlots_structure g d cands
    (allSlots.filter (fun s => s ≠ base.functional_slot)) [base]
  exact ⟨extra, by simpa [buildLookFromCluster] using he, hsub, hm⟩

/-- Per-look invariants of buildLookFromCluster: when the cluster draws
from a pool of sku-distinct products not containing the base sku, the
look contains the base exactly once, nothing else occupies the base slot,
and the items have pairwise distinct skus and pairwise distinct slots. -/
theorem buildLook_invariants (g : String → String → ℚ) (d : Dimension)
    (base : Product) (cands pool : List Product)
    (hsub : ∀ x ∈ cands, x ∈ pool)
    (hnd : (pool.map Product.sku).Nodup)
    (hbase : base.sku ∉ pool.map Product.sku) :
    (buildLookFromCluster g d base cands).countP
      (fun x => x.sku = base.sku) = 1 ∧
    (∀ x ∈ buildLookFromCluster g d base cands,
      x.functional_slot = base.functional_slot → x = base) ∧
    ((buildLookFromCluster g d base cands).map Product.sku).Nodup ∧
    ((buildLookFromCluster g d base cands).map
      Product.functional_slot).Nodup := by
  obtain ⟨extra, he, hsubl, hmem⟩ :=
    buildLookFromCluster_structure g d base cands
  have hslotT : ∀ s ∈ allSlots.filter (fun s => s ≠ base.functional_slot),
      s ≠ base.functional_slot := by
    intro s hs
    simpa using (List.mem_filter.mp hs).2
  have hxslot : ∀ x ∈ extra, x.functional_slot ≠ base.functional_slot := by
    intro x hx
    exact hslotT x.functional_slot
      (hsubl.subset (List.mem_map_of_mem Product.functional_slot hx))
  have hxpool : ∀ x ∈ extra, x ∈ pool := fun x hx => hsub x (hmem x hx)
  have hxsku : ∀ x ∈ extra, x.sku ≠ base.sku := by
    intro x hx heq
    exact hbase (heq ▸ List.mem_map_of_mem Product.sku (hxpool x hx))
  have hnodupT : (allSlots.filter
      (fun s => s ≠ base.functional_slot)).Nodup :=
    List.Nodup.filter _ (by decide)
  have hnodupSlots : (extra.map Product.functional_slot).Nodup :=
    hnodupT.sublist hsubl
  have hnodupExtra : extra.Nodup := hnodupSlots.of_map
  rw [he]
  refine ⟨?_, ?_, ?_, ?_⟩
  · rw [List.countP_cons]
    have h0 : extra.countP (fun x => x.sku = base.sku) = 0 := by
      rw [List.countP_eq_zero]
      intro x hx
      simp [hxsku x hx]
    simp [h0]
  · intro x hx hslot
    rcases List.mem_cons.mp hx with rfl | hx2
    · rfl
    · exact absurd hslot (hxslot x hx2)
  · rw [List.map_cons, List.nodup_cons]
    constructor
    · intro hmm
      obtain ⟨x, hx, hxe⟩ := List.mem_map.mp hmm
      exact hxsku x hx hxe
    · refine List.Nodup.map_on ?_ hnodupExtra
      intro x hx y hy hxy
      exact List.inj_on_of_nodup_map hnd (hxpool x hx) (hxpool y hy) hxy
  · rw [List.map_cons, List.nodup_cons]
    constructor
    · intro hmm
      obtain ⟨x, hx, hxe⟩ := List.mem_map.mp hmm
      exact hxslot x hx hxe
    · exact hnodupSlots

/-! ### C2 -/

/-- The generation fold never grows past numLooks. -/
theorem genFold_length (g : String → String → ℚ) (base : Product)
    (numLooks : Nat) :
    ∀ (cls : List Cluster) (acc : List GenLook),
      acc.length ≤ numLooks →
      (cls.foldl (genStep g base numLooks) acc).length ≤ numLooks := by
  intro cls
  induction cls with
  | nil => intro acc h; exact h
  | cons cl rest ih =>
      intro acc h
      simp only [List.foldl_cons, genStep]
      by_cases hlt : acc.length < numLooks
      · simp only [hlt, if_true]
        exact ih _ (by simpa using Nat.succ_le_of_lt hlt)
      · simp only [hlt, if_false]
        exact ih acc h

/-- Every look of the generation fold is an accumulator look or was built
from one of the clusters. -/
theorem genFold_mem (g : String → String → ℚ) (base : Product)
    (numLooks : Nat) :
    ∀ (cls : List Cluster) (acc : List GenLook) (gl : GenLook),
      gl ∈ cls.foldl (genStep g base numLooks) acc →
      gl ∈ acc ∨ ∃ cl, cl ∈ cls ∧
        gl.items = buildLookFromCluster g cl.dimension base cl.members := by
  intro cls
  induction cls with
  | nil => intro acc gl h; exact Or.inl h
  | cons cl rest ih =>
      intro acc gl h
      simp only [List.foldl_cons] at h
      rcases ih (genStep g base numLooks acc cl) gl h with h1 | ⟨cl2, h2, h3⟩
      · simp only [genStep] at h1
        by_cases hlt : acc.length < numLooks
        · simp only [hlt, if_true, List.mem_append,
            List.mem_singleton] at h1
          rcases h1 with h1 | rfl
          · exact Or.inl h1
          · exact Or.inr ⟨cl, List.mem_cons_self cl rest, rfl⟩
        · simp only [hlt, if_false] at h1
          exact Or.inl h1
      · exact Or.inr ⟨cl2, List.mem_cons_of_mem cl h2, h3⟩

/-- Cluster membership draws from the pool the clusterer was given. -/
theorem clusterMembers_subset (base : Product) (d : Dimension) (v : String)
    (pool : List Product) :
    ∀ x ∈ clusterMembers base d v pool, x ∈ pool := by
  intro x hx
  cases d <;> simp only [clusterMembers] at hx <;>
    exact (List.mem_filter.mp hx).1

/-- Every cluster buildClusters produces has its members in the pool. -/
theorem buildClusters_members_subset (base : Product)
    (pool : List Product) :
    ∀ cl ∈ buildClusters base pool, ∀ x ∈ cl.members, x ∈ pool := by
  intro cl hcl
  simp only [buildClusters, List.mem_flatMap, List.mem_map] at hcl
  obtain ⟨d, _, v, _, rfl⟩ := hcl
  exact fun x hx => clusterMembers_subset base d v pool x hx

/-- C2, amended.  Under distinct catalog skus the generated looks each
contain the anchor exactly once and in its own slot, carry pairwise
distinct skus and pairwise distinct slots, and at most numLooks looks are
returned; the claimed pairwise distinctness of the returned looks by sku
multiset is not guaranteed (see the counterexample: two cluster keys with
identical members yield duplicate looks). -/
theorem generate_invariants (g : String → String → ℚ) (base : Product)
    (pool : List Product) (numLooks : Nat)
    (hnd : (pool.map Product.sku).Nodup)
    (hbase : base.sku ∉ pool.map Product.sku) :
    (generateMultipleLooks g base pool numLooks).length ≤ numLooks ∧
    ∀ gl ∈ generateMultipleLooks g base pool numLooks,
      gl.items.countP (fun x => x.sku = base.sku) = 1 ∧
      (∀ x ∈ gl.items, x.functional_slot = base.functional_slot →
        x = base) ∧
      (gl.items.map Product.sku).Nodup ∧
      (gl.items.map Product.functional_slot).Nodup := by
  constructor
  · simp only [generateMultipleLooks]
    exact genFold_length g base numLooks _ [] (Nat.zero_le _)
  · intro gl hgl
    simp only [generateMultipleLooks] at hgl
    rcases genFold_mem g base numLooks _ [] gl hgl with h | ⟨cl, hcl, hitems⟩
    · cases h
    · have hsub : ∀ x ∈ cl.members, x ∈ pool := by
        intro x hx
        have hx2 := buildClusters_members_subset base
          (pool.filter (fun c => Valid base c)) cl hcl x hx
        exact (List.mem_filter.mp hx2).1
      rw [hitems]
      exact buildLook_invariants g cl.dimension base cl.members pool hsub
        hnd hbase

/-- C2, witness for the amended theorem at the concrete pool dupPool. -/
theorem generate_invariants_witness :
    ((dupPool.map Product.sku).Nodup ∧
      gymTank.sku ∉ dupPool.map Product.sku) ∧
    ((generateMultipleLooks zeroGraph gymTank dupPool 2).length ≤ 2 ∧
      ∀ gl ∈ generateMultipleLooks zeroGraph gymTank dupPool 2,
        gl.items.countP (fun x => x.sku = gymTank.sku) = 1 ∧
        (∀ x ∈ gl.items,
          x.functional_slot = gymTank.functional_slot → x = gymTank) ∧
        (gl.items.map Product.sku).Nodup ∧
        (gl.items.map Product.functional_slot).Nodup) :=
  ⟨⟨by decide, by decide⟩,
    generate_invariants zeroGraph gymTank dupPool 2 (by decide) (by decide)⟩

/-! ### C5, amended -/

/-- C5, amended.  The assembler rejects a look exactly when the built look
fails the README's rule — Footwear filled AND Accessory filled; a look
with only one of the two is rejected.  An accepted look has both slots
filled, and when the anchor occupies neither of those two slots it has at
least three items (anchor, footwear, accessory); no separate minimum-size
check exists. -/
theorem assemble_rejects_iff (g : String → String → ℚ) (d : Dimension)
    (base : Product) (cands : List Product) :
    (assembleLook g d base cands = none ↔
      meetsFootwearAccessoryRule (buildLookFromCluster g d base cands) =
        false) ∧
    ∀ L, assembleLook g d base cands = some L →
      hasSlot L Slot.footwear = true ∧ hasSlot L Slot.accessory = true ∧
      (base.functional_slot ≠ Slot.footwear →
        base.functional_slot ≠ Slot.accessory → 3 ≤ L.length) := by
  constructor
  · cases hmb : meetsFootwearAccessoryRule
        (buildLookFromCluster g d base cands) with
    | true => simp [assembleLook, hmb]
    | false => simp [assembleLook, hmb]
  · intro L hL
    cases hmb : meetsFootwearAccessoryRule
        (buildLookFromCluster g d base cands) with
    | false => simp [assembleLook, hmb] at hL
    | true =>
        simp only [assembleLook, hmb, if_true] at hL
        have hLe : L = buildLookFromCluster g d base cands :=
          (Option.some.inj hL).symm
        have hmb2 := hmb
        rw [← hLe] at hmb2
        have hfa := hmb2
        simp only [meetsFootwearAccessoryRule, Bool.and_eq_true] at hfa
        refine ⟨hfa.1, hfa.2, ?_⟩
        intro hbf hba
        obtain ⟨extra, he, hsubl, hmem⟩ :=
          buildLookFromCluster_structure g d base cands
        rw [← hLe] at he
        obtain ⟨x, hxL, hxf⟩ : ∃ x ∈ L, x.functional_slot = Slot.footwear := by
          have := hfa.1
          simp only [hasSlot, List.any_eq_true, decide_eq_true_eq] at this
          exact this
        obtain ⟨y, hyL, hya⟩ : ∃ y ∈ L, y.functional_slot = Slot.accessory := by
          have := hfa.2
          simp only [hasSlot, List.any_eq_true, decide_eq_true_eq] at this
          exact this
        have hxe : x ∈ extra := by
          rcases List.mem_cons.mp (he ▸ hxL) with rfl | hx2
          · exact absurd hxf hbf
          · exact hx2
        have hye : y ∈ extra := by
          rcases List.mem_cons.mp (he ▸ hyL) with rfl | hy2
          · exact absurd hya hba
          · exact hy2
        have hxy : x ≠ y := by
          intro hxyeq
          rw [hxyeq] at hxf
          rw [hxf] at hya
          cases hya
        have hcard : 2 ≤ extra.length := by
          have hsubf : ({x, y} : Finset Product) ⊆ extra.toFinset := by
            intro z hz
            rcases Finset.mem_insert.mp hz with rfl | hz2
            · exact List.mem_toFinset.mpr hxe
            · exact List.mem_toFinset.mpr
                (Finset.mem_singleton.mp hz2 ▸ hye)
          have hc2 : ({x, y} : Finset Product).card = 2 := by
            rw [Finset.card_insert_of_not_mem (by simp [hxy])]
            simp
          calc 2 = ({x, y} : Finset Product).card := hc2.symm
            _ ≤ extra.toFinset.card := Finset.card_le_card hsubf
            _ ≤ extra.length := extra.toFinset_card_le
        rw [he]
        simp only [List.length_cons]
        omega

/-- C5, witness: from a cluster with footwear and an accessory the
assembler accepts the three-item look, which satisfies both slot
requirements. -/
theorem assemble_rejects_iff_witness :
    assembleLook zeroGraph Dimension.occasion baseC5 [footC5, accC5] =
      some [baseC5, footC5, accC5] ∧
    hasSlot [baseC5, footC5, accC5] Slot.footwear = true ∧
    hasSlot [baseC5, footC5, accC5] Slot.accessory = true ∧
    3 ≤ ([baseC5, footC5, accC5] : List Product).length := by
  have h : assembleLook zeroGraph Dimension.occasion baseC5
      [footC5, accC5] = some [baseC5, footC5, accC5] := by decide
  have h2 := (assemble_rejects_iff zeroGraph Dimension.occasion baseC5
    [footC5, accC5]).2 [baseC5, footC5, accC5] h
  exact ⟨h, h2.1, h2.2.1, h2.2.2 (by decide) (by decide)⟩

/-! ### C4 -/

/-- The pair sum is nonnegative when all scores are. -/
theorem pairSum_nonneg (g : String → String → ℚ)
    (h0 : ∀ x y, 0 ≤ g x y) :
    ∀ L : List Product, 0 ≤ pairSum g L := by
  intro L
  induction L with
  | nil => simp [pairSum]
  | cons p rest ih =>
      simp only [pairSum]
      have hs : 0 ≤ (rest.map (fun q => g p.sku q.sku)).sum := by
        apply List.sum_nonneg
        intro r hr
        obtain ⟨q, _, rfl⟩ := List.mem_map.mp hr
        exact h0 p.sku q.sku
      linarith

/-- The pair sum is at most the number of pairs when all scores are at
most 1. -/
theorem pairSum_le_choose (g : String → String → ℚ)
    (h1 : ∀ x y, g x y ≤ 1) :
    ∀ L : List Product, pairSum g L ≤ (Nat.choose L.length 2 : ℚ) := by
  intro L
  induction L with
  | nil => simp [pairSum]
  | cons p rest ih =>
      simp only [pairSum, List.length_cons]
      have hs : (rest.map (fun q => g p.sku q.sku)).sum ≤
          (rest.length : ℚ) := by
        have := List.sum_le_card_nsmul (rest.map (fun q => g p.sku q.sku))
          1 (by
            intro r hr
            obtain ⟨q, _, rfl⟩ := List.mem_map.mp hr
            exact h1 p.sku q.sku)
        simpa [nsmul_eq_mul] using this
      have hchoose : (rest.length + 1).choose 2 =
          rest.length.choose 2 + rest.length := by
        rw [Nat.choose_succ_succ rest.length 1, Nat.choose_one_right]
        exact Nat.add_comm rest.length (rest.length.choose 2)
      rw [hchoose]
      push_cast
      linarith

/-- InternalCoherence lies in [0, 1] when all scores do, and equals the
pair sum divided by the number of pairs for looks of two or more items. -/
theorem internalCoherence_bounds (g : String → String → ℚ)
    (L : List Product) (h0 : ∀ x y, 0 ≤ g x y)
    (h1 : ∀ x y, g x y ≤ 1) :
    0 ≤ InternalCoherence g L ∧ InternalCoherence g L ≤ 1 ∧
    (2 ≤ L.length →
      InternalCoherence g L = pairSum g L / (Nat.choose L.length 2 : ℚ)) := by
  by_cases hm : L.length ≤ 1
  · refine ⟨by simp [InternalCoherence, hm], by simp [InternalCoherence, hm],
      fun h2 => absurd h2 (by omega)⟩
  · have hm2 : 2 ≤ L.length := by omega
    have hq2 : (2 : ℚ) ≤ (L.length : ℚ) := by exact_mod_cast hm2
    have hden : 0 < (L.length : ℚ) * ((L.length : ℚ) - 1) := by nlinarith
    have hps0 := pairSum_nonneg g h0 L
    have hps1 := pairSum_le_choose g h1 L
    have hcast : (Nat.choose L.length 2 : ℚ) =
        (L.length : ℚ) * ((L.length : ℚ) - 1) / 2 :=
      Nat.cast_choose_two ℚ L.length
    refine ⟨?_, ?_, fun _ => ?_⟩
    · simp only [InternalCoherence, hm, if_false]
      positivity
    · simp only [InternalCoherence, hm, if_false]
      rw [div_le_one hden]
      rw [hcast] at hps1
      linarith
    · simp only [InternalCoherence, hm, if_false]
      rw [hcast, div_div_eq_mul_div]

/-- The intersection of the items' dimension values is contained in their
union. -/
theorem interAll_subset_unionAll (d : Dimension) :
    ∀ (L : List Product), ∀ v ∈ interAll d L, v ∈ unionAll d L := by
  intro L
  match L with
  | [] => intro v hv; cases hv
  | [p] =>
      intro v hv
      simp only [interAll] at hv
      simp [unionAll, hv]
  | p :: q :: rest =>
      intro v hv
      simp only [interAll, sinter] at hv
      have hvp : v ∈ dimValues d p := (List.mem_filter.mp hv).1
      simp [unionAll, hvp]

/-- Distinct-value counting is monotone under list containment. -/
theorem valueCount_le_of_subset (xs ys : List String)
    (h : ∀ v ∈ xs, v ∈ ys) : valueCount xs ≤ valueCount ys := by
  rw [valueCount, valueCount, ← List.card_toFinset, ← List.card_toFinset]
  apply Finset.card_le_card
  intro a ha
  exact List.mem_toFinset.mpr (h a (List.mem_toFinset.mp ha))

/-- The dimension bonus lies in [0, 1]. -/
theorem dimensionBonus_bounds (d : Dimension) (L : List Product) :
    0 ≤ DimensionBonus d L ∧ DimensionBonus d L ≤ 1 := by
  by_cases hu : valueCount (unionAll d L) = 0
  · simp [DimensionBonus, hu]
  · have hle : valueCount (interAll d L) ≤ valueCount (unionAll d L) :=
      valueCount_le_of_subset _ _ (interAll_subset_unionAll d L)
    have hupos : 0 < (valueCount (unionAll d L) : ℚ) := by
      exact_mod_cast Nat.pos_of_ne_zero hu
    constructor
    · simp only [DimensionBonus, hu, if_false]
      positivity
    · simp only [DimensionBonus, hu, if_false]
      rw [div_le_one hupos]
      exact_mod_cast hle

/-- C4.  The reported look score is the weighted sum
0.5·meanPairwise + 0.3·dimensionBonus + 0.2·slotCoverage of
docs/algorithm.md section 5.5, the mean-pairwise term averages over all
m(m−1)/2 item pairs, and under scores in [0, 1] and at most six items the
value lies in [0, 1]. -/
theorem objective_formula_and_bounds (g : String → String → ℚ)
    (d : Dimension) (L : List Product)
    (h0 : ∀ x y, 0 ≤ g x y) (h1 : ∀ x y, g x y ≤ 1)
    (hlen : L.length ≤ 6) :
    Objective g d L = (1/2) * InternalCoherence g L +
      (3/10) * DimensionBonus d L + (1/5) * SlotCoverage L ∧
    (2 ≤ L.length →
      InternalCoherence g L =
        pairSum g L / (Nat.choose L.length 2 : ℚ)) ∧
    0 ≤ Objective g d L ∧ Objective g d L ≤ 1 := by
  have hic := internalCoherence_bounds g L h0 h1
  have hdb := dimensionBonus_bounds d L
  have hsc0 : 0 ≤ SlotCoverage L := by
    simp only [SlotCoverage]
    positivity
  have hsc1 : SlotCoverage L ≤ 1 := by
    simp only [SlotCoverage]
    rw [div_le_one (by norm_num)]
    exact_mod_cast hlen
  refine ⟨rfl, hic.2.2, ?_, ?_⟩
  · simp only [Objective]
    linarith [hic.1, hdb.1]
  · simp only [Objective]
    linarith [hic.2.1, hdb.2]

/-- Constant half-score graph for the concrete objective check. -/
def halfGraph : String → String → ℚ := fun _ _ => 1/2

/-- C4, witness for the bounds at a concrete two-item look. -/
theorem objective_bounds_witness :
    ([baseC5, footC5] : List Product).length ≤ 6 ∧
    (0 ≤ Objective halfGraph Dimension.occasion [baseC5, footC5] ∧
      Objective halfGraph Dimension.occasion [baseC5, footC5] ≤ 1) := by
  refine ⟨by decide, ?_⟩
  have h := objective_formula_and_bounds halfGraph Dimension.occasion
    [baseC5, footC5] (fun x y => by norm_num [halfGraph])
    (fun x y => by norm_num [halfGraph]) (by decide)
  exact ⟨h.2.2.1, h.2.2.2⟩

/-! ### C8 -/

/-- C8.  Two calls of the cached endpoint with the same (anchorSku,
numLooks) key, the second within the 300-second TTL of the entry the
first created, return equal responses, and the second call performs no
additional neighbors database invocation; from a cold cache the pair of
calls performs at most one. -/
theorem cache_hit_behavior (store : String → List (String × ℚ))
    (catalog : List Product) (g : String → String → ℚ) (sku : String)
    (numLooks : Nat) (t1 t2 : Nat) (h2 : t2 < t1 + cacheTtlSeconds) :
    (generateCached store catalog g sku numLooks
        ((generateCached store catalog g sku numLooks
          initialServerState t1).2) t2).1 =
      (generateCached store catalog g sku numLooks
        initialServerState t1).1 ∧
    (generateCached store catalog g sku numLooks
        ((generateCached store catalog g sku numLooks
          initialServerState t1).2) t2).2.neighborsCalls =
      (generateCached store catalog g sku numLooks
        initialServerState t1).2.neighborsCalls ∧
    (generateCached store catalog g sku numLooks
        initialServerState t1).2.neighborsCalls ≤ 1 := by
  cases hfind : catalog.find? (fun p => p.sku = sku) with
  | none =>
      simp [generateCached, hfind, initialServerState]
  | some base =>
      have hLk1 : compatLookup store initialServerState sku t1 =
          (store sku, ServerState.mk
            [(sku, CacheEntry.mk (store sku) (t1 + cacheTtlSeconds))] 1) := by
        simp [compatLookup, compatFetch, initialServerState]
      have hLk2 : compatLookup store (ServerState.mk
          [(sku, CacheEntry.mk (store sku) (t1 + cacheTtlSeconds))] 1)
          sku t2 =
          (store sku, ServerState.mk
            [(sku, CacheEntry.mk (store sku) (t1 + cacheTtlSeconds))] 1) := by
        simp only [compatLookup]
        rw [List.find?_cons_of_pos _ (by simp)]
        simp [h2]
      simp [generateCached, hfind, hLk1, hLk2]

/-- Concrete compatibility store for the cache check. -/
def storeW : String → List (String × ℚ) :=
  fun s => if s = "TANK" then [("SHORTS", 1/2)] else []

/-- C8, witness at a concrete store, catalog and pair of instants 0 and
100 within the TTL. -/
theorem cache_hit_behavior_witness :
    (100 < 0 + cacheTtlSeconds) ∧
    ((generateCached storeW [gymTank, dupShorts] zeroGraph "TANK" 3
        ((generateCached storeW [gymTank, dupShorts] zeroGraph "TANK" 3
          initialServerState 0).2) 100).1 =
      (generateCached storeW [gymTank, dupShorts] zeroGraph "TANK" 3
        initialServerState 0).1 ∧
    (generateCached storeW [gymTank, dupShorts] zeroGraph "TANK" 3
        ((generateCached storeW [gymTank, dupShorts] zeroGraph "TANK" 3
          initialServerState 0).2) 100).2.neighborsCalls =
      (generateCached storeW [gymTank, dupShorts] zeroGraph "TANK" 3
        initialServerState 0).2.neighborsCalls ∧
    (generateCached storeW [gymTank, dupShorts] zeroGraph "TANK" 3
        initialServerState 0).2.neighborsCalls ≤ 1) :=
  ⟨by decide, cache_hit_behavior storeW [gymTank, dupShorts] zeroGraph
    "TANK" 3 0 100 (by decide)⟩

/-! ### C9 -/

/-- A second base-top product sharing the anchor's slot: never a valid
candidate for it. -/
def tankTwin : Product :=
  Product.mk "TWIN" Slot.baseTop ["Gym"] ["Athletic"] 1 ["Summer"] "White"
    false

/-- With valid arguments and a resolved anchor the service always
succeeds: its result is some Except.ok. -/
theorem generateService_isOk (catalog : List Product)
    (g : String → String → ℚ) (anchorSku : String) (numLooks : Nat)
    (base : Product)
    (hn1 : ¬ numLooks < 1) (hn2 : ¬ maxLooks < numLooks)
    (hfind : catalog.find? (fun p => p.sku = anchorSku) = some base) :
    ∃ r, generateService catalog g anchorSku numLooks = Except.ok r := by
  have hcond : (decide (numLooks < 1) || decide (maxLooks < numLooks)) =
      false := by simp [hn1, hn2]
  simp only [generateService, hcond, Bool.false_eq_true, if_false, hfind]
  split
  · exact ⟨_, rfl⟩
  · exact ⟨_, rfl⟩

/-- C9.  The service fails with InvalidArgument exactly when numLooks is
outside [1, maxLooks]; with valid arguments it fails with AnchorNotFound
exactly when the anchor sku is unknown; and with a known anchor and an
empty candidate pool after validity filtering it succeeds with
LooksResponse(anchor, [], 0). -/
theorem generate_service_contract (catalog : List Product)
    (g : String → String → ℚ) (anchorSku : String) (numLooks : Nat) :
    (generateService catalog g anchorSku numLooks =
        Except.error DCLGError.InvalidArgument ↔
      (numLooks < 1 ∨ maxLooks < numLooks)) ∧
    (1 ≤ numLooks → numLooks ≤ maxLooks →
      (generateService catalog g anchorSku numLooks =
          Except.error DCLGError.AnchorNotFound ↔
        catalog.find? (fun p => p.sku = anchorSku) = none)) ∧
    (∀ base, catalog.find? (fun p => p.sku = anchorSku) = some base →
      1 ≤ numLooks → numLooks ≤ maxLooks →
      (catalog.filter (fun p => p.sku ≠ anchorSku)).filter
        (fun c => Valid base c) = [] →
      generateService catalog g anchorSku numLooks =
        Except.ok (LooksResponse.mk anchorSku [] 0)) := by
  refine ⟨?_, ?_, ?_⟩
  · by_cases hbad : numLooks < 1 ∨ maxLooks < numLooks
    · rcases hbad with h1 | h1 <;> simp [generateService, h1]
    · push_neg at hbad
      have h1 : ¬ numLooks < 1 := by omega
      have h2 : ¬ maxLooks < numLooks := by omega
      cases hfind : catalog.find? (fun p => p.sku = anchorSku) with
      | none =>
          simp [generateService, h1, h2, hfind]
      | some base =>
          obtain ⟨r, hr⟩ := generateService_isOk catalog g anchorSku
            numLooks base h1 h2 hfind
          rw [hr]
          simp
          omega
  · intro hge hle
    have h1 : ¬ numLooks < 1 := by omega
    have h2 : ¬ maxLooks < numLooks := by omega
    cases hfind : catalog.find? (fun p => p.sku = anchorSku) with
    | none => simp [generateService, h1, h2, hfind]
    | some base =>
        obtain ⟨r, hr⟩ := generateService_isOk catalog g anchorSku
          numLooks base h1 h2 hfind
        rw [hr]
        simp
  · intro base hfind hge hle hpool
    have h1 : ¬ numLooks < 1 := by omega
    have h2 : ¬ maxLooks < numLooks := by omega
    have hcond : (decide (numLooks < 1) ||
        decide (maxLooks < numLooks)) = false := by simp [h1, h2]
    have hpe : ((catalog.filter (fun p => p.sku ≠ anchorSku)).filter
        (fun c => Valid base c)).isEmpty = true := by
      rw [hpool]
      rfl
    simp only [generateService, hcond, Bool.false_eq_true, if_false,
      hfind]
    rw [if_pos hpe]

/-- C9, witness: numLooks 0 and 11 give InvalidArgument, an unknown sku
gives AnchorNotFound, and a known anchor whose only peer shares its slot
gives the empty success response. -/
theorem generate_service_contract_witness :
    generateService [gymTank, tankTwin] zeroGraph "TANK" 0 =
      Except.error DCLGError.InvalidArgument ∧
    generateService [gymTank, tankTwin] zeroGraph "TANK" 11 =
      Except.error DCLGError.InvalidArgument ∧
    generateService [gymTank, tankTwin] zeroGraph "MISSING" 3 =
      Except.error DCLGError.AnchorNotFound ∧
    generateService [gymTank, tankTwin] zeroGraph "TANK" 3 =
      Except.ok (LooksResponse.mk "TANK" [] 0) := by
  refine ⟨?_, ?_, ?_, ?_⟩
  · exact (generate_service_contract [gymTank, tankTwin] zeroGraph
      "TANK" 0).1.mpr (Or.inl (by decide))
  · exact (generate_service_contract [gymTank, tankTwin] zeroGraph
      "TANK" 11).1.mpr (Or.inr (by decide))
  · exact ((generate_service_contract [gymTank, tankTwin] zeroGraph
      "MISSING" 3).2.1 (by decide) (by decide)).mpr (by decide)
  · exact (generate_service_contract [gymTank, tankTwin] zeroGraph
      "TANK" 3).2.2 gymTank (by decide) (by decide) (by decide) (by decide)

end DCLG
